import Mathlib

/- Verification development for the Ramulator DPI wrapper
   (src/dpi_wrapper/ramulator_dpi.cpp).  The wrapper state and its
   lifecycle operations are embedded as pure Lean functions.  The
   external frontend acceptor and timing engine (constructed by the
   factory, outside this source) appear as oracle parameters: the
   acceptor's admission decision is a Boolean input to the submit
   operation, and the subset of in-flight requests the engine completes
   during one of its ticks is a Boolean mask input to the advance
   operation.  64-bit machine values (addresses, data, the cycle
   counter) are natural numbers reduced mod 2 ^ 64 where the C types
   force it. -/

/-- Completion entry pairing a completed address with the functional data
value to return (struct CompletedReq, ramulator_dpi.cpp lines 16-19). -/
structure CompletedReq where
  addr : Nat
  data : Nat
  deriving DecidableEq, Repr

/-- Association-list lookup, modelling std::unordered_map::find. -/
def alookup {α : Type} : List (Nat × α) → Nat → Option α
  | [], _ => none
  | (k, x) :: t, a => if k = a then some x else alookup t a

/-- Association-list insert-or-overwrite, modelling assignment through
std::unordered_map::operator[]. -/
def aupdate {α : Type} : List (Nat × α) → Nat → α → List (Nat × α)
  | [], a, v => [(a, v)]
  | (k, x) :: t, a, v => if k = a then (a, v) :: t else (k, x) :: aupdate t a v

/-- State of struct RamulatorWrapper (lines 21-37).  req_times maps an
address to its (issue cycle, request type) pair; functional_mem maps an
address to the last value written; completed_requests is the FIFO
completion queue.  The two engine handles are external; the engine-side
list of accepted, not yet completed requests (address, request type) is
kept in the inflight field (spec-modelled, see engineTick).  The two
clock-ratio fields of the source, frontend_tick_ratio and
mem_tick_ratio, are named frontend_tick_rate and mem_tick_rate here.
cycle_count is the uint64_t external cycle counter. -/
structure RamulatorWrapper where
  req_times : List (Nat × (Nat × Nat))
  completed_requests : List CompletedReq
  functional_mem : List (Nat × Nat)
  frontend_tick_rate : Nat
  mem_tick_rate : Nat
  cycle_count : Nat
  inflight : List (Nat × Nat)
  deriving DecidableEq, Repr

/-- Reinterpretation of a 64-bit value as a signed two's-complement
long long, as performed by the return cast of ramulator_check_response
(line 144) for the completed address. -/
def toInt64 (n : Nat) : Int :=
  if n % 2 ^ 64 < 2 ^ 63 then ((n % 2 ^ 64 : Nat) : Int)
  else ((n % 2 ^ 64 : Nat) : Int) - 2 ^ 64

/-- Value resolved by the completion callback (lines 83-90): the last
value written to the address if the functional store holds one,
otherwise the address itself as a deterministic default (line 89). -/
def resolveVal (fm : List (Nat × Nat)) (a : Nat) : Nat :=
  match alookup fm a with
  | some v => v
  | none => a

/-- Entries of a list selected by a Boolean mask (the oracle choice of
which in-flight requests the timing engine completes during one tick);
entries beyond the end of the mask are not selected. -/
def maskSelect {α : Type} : List α → List Bool → List α
  | [], _ => []
  | _ :: _, [] => []
  | x :: t, b :: bs => if b then x :: maskSelect t bs else maskSelect t bs

/-- Entries of a list not selected by the mask: these stay in flight. -/
def maskReject {α : Type} : List α → List Bool → List α
  | [], _ => []
  | x :: t, [] => x :: t
  | x :: t, b :: bs => if b then maskReject t bs else x :: maskReject t bs

/-- Modelled from the spec: the timing engine (frontend and memory
system, constructed externally and not part of the wrapper source)
completes, during one of its own ticks, an oracle-chosen subset of the
in-flight accepted requests, and invokes the stored completion callback
only for Read requests (request type 0): the spec states that completion
entries are produced only for Read requests whose timing-engine callback
fires, and that a Write never waits for or produces a completion.  The
effect of one callback invocation is taken from the wrapper source
(lines 82-92): it resolves the functional-store value for the completed
address at fire time and appends one completion entry to the queue. -/
def engineTick (w : RamulatorWrapper) (mask : List Bool) : RamulatorWrapper :=
  { w with
    completed_requests := w.completed_requests ++
      ((maskSelect w.inflight mask).filter (fun p => p.2 == 0)).map
        (fun p => { addr := p.1, data := resolveVal w.functional_mem p.1 }),
    inflight := maskReject w.inflight mask }

/-- Fresh wrapper state after ramulator_init (lines 41-65): the two
clock ratios are read from the externally loaded configuration (oracle
parameters rf and rm here), the cycle counter starts at zero and all
bookkeeping structures start empty. -/
def ramulator_init (rf rm : Nat) : RamulatorWrapper :=
  { req_times := [], completed_requests := [], functional_mem := [],
    frontend_tick_rate := rf, mem_tick_rate := rm, cycle_count := 0,
    inflight := [] }

/-- Submit operation ramulator_send_request (lines 67-106).  A Write
(req_type 1) records its data in the functional store immediately,
before the acceptance check (lines 77-79).  The acceptance decision of
the external frontend acceptor (line 94) is the oracle argument
accepted; on acceptance the ledger entry is recorded at the current
cycle (lines 98-103) and the request, together with its callback, is
handed to the engine (modelled by appending to inflight).  source_id is
only forwarded to the acceptor and is omitted.  The 64-bit C arguments
are reduced mod 2 ^ 64 at the boundary.  Returns the updated state and
the int result (1 accepted, 0 rejected). -/
def ramulator_send_request (w : RamulatorWrapper) (addr req_type data : Nat)
    (accepted : Bool) : RamulatorWrapper × Nat :=
  let a := addr % 2 ^ 64
  let d := data % 2 ^ 64
  let w1 := if req_type == 1
    then { w with functional_mem := aupdate w.functional_mem a d }
    else w
  if accepted then
    ({ w1 with
        req_times := aupdate w1.req_times a (w1.cycle_count, req_type),
        inflight := w1.inflight ++ [(a, req_type)] }, 1)
  else (w1, 0)

/-- Advance operation ramulator_tick (lines 108-120): increments the
uint64 cycle counter, then drives the frontend iff the post-increment
counter n satisfies (n mod (rf * rm)) mod rm == 0 (line 114) and the
timing engine iff (n mod (rf * rm)) mod rf == 0 (line 117), where rf is
the frontend clock ratio and rm the memory clock ratio.  The frontend
tick itself touches no wrapper state; an engine tick may complete
in-flight requests (engineTick, driven by the oracle mask).  Returns the
new state and the pair of Booleans (frontend driven, engine driven). -/
def ramulator_tick (w : RamulatorWrapper) (mask : List Bool) :
    RamulatorWrapper × Bool × Bool :=
  let cc := (w.cycle_count + 1) % 2 ^ 64
  let w1 := { w with cycle_count := cc }
  let tick_mult := w1.frontend_tick_rate * w1.mem_tick_rate
  let fe := ((cc % tick_mult) % w1.mem_tick_rate) == 0
  let me := ((cc % tick_mult) % w1.frontend_tick_rate) == 0
  let w2 := if me then engineTick w1 mask else w1
  (w2, fe, me)

/-- Drain operation ramulator_check_response (lines 122-145): on an
empty completion queue it returns the sentinel -1 with no state change
and nothing written through data_out (modelled as none); otherwise it
pops the front entry and returns its data through data_out and its
address cast to long long.  The ledger lookup at lines 136-142 feeds
only the latency printf and changes nothing. -/
def ramulator_check_response (w : RamulatorWrapper) :
    RamulatorWrapper × Int × Option Nat :=
  match w.completed_requests with
  | [] => (w, -1, none)
  | cr :: rest =>
    ({ w with completed_requests := rest }, toInt64 cr.addr, some cr.data)

/-- One driver-visible operation of the bridge session, with the
external oracles (acceptance decision, engine completion mask) recorded
as constructor arguments. -/
inductive Op where
  | submit (addr req_type data : Nat) (accepted : Bool)
  | advance (mask : List Bool)
  | drain
  deriving DecidableEq, Repr

/-- State transition of one operation. -/
def step (w : RamulatorWrapper) : Op → RamulatorWrapper
  | Op.submit a ty d acc => (ramulator_send_request w a ty d acc).1
  | Op.advance mask => (ramulator_tick w mask).1
  | Op.drain => (ramulator_check_response w).1

/-- Run a sequence of operations. -/
def runOps (w : RamulatorWrapper) (ops : List Op) : RamulatorWrapper :=
  ops.foldl step w

/-- Drive the wrapper through n advance calls with an idle engine
completion oracle, counting how many of the calls drove the frontend
and how many drove the timing engine. -/
def runTicks : RamulatorWrapper → Nat → RamulatorWrapper × Nat × Nat
  | w, 0 => (w, 0, 0)
  | w, n + 1 =>
    let r := ramulator_tick w []
    let s := runTicks r.1 n
    (s.1, (if r.2.1 then 1 else 0) + s.2.1, (if r.2.2 then 1 else 0) + s.2.2)

/-- Whether an operation is a Write submit whose functional-store key is
address a. -/
def opWritesTo : Op → Nat → Bool
  | Op.submit a2 ty _ _, a => ty == 1 && a2 % 2 ^ 64 == a
  | _, _ => false

/-- Whether no operation of the list writes to address a. -/
def noWriteTo (ops : List Op) (a : Nat) : Bool :=
  ops.all (fun op => !(opWritesTo op a))

/-- Whether every completion entry of the queue carries, for address a,
the data value dv. -/
def queueRespects (q : List CompletedReq) (a dv : Nat) : Bool :=
  q.all (fun e => e.addr != a || e.data == dv)

/-- Completion entries appended to the queue by one advance call. -/
def tickDelta (w : RamulatorWrapper) (mask : List Bool) : List CompletedReq :=
  ((ramulator_tick w mask).1.completed_requests).drop w.completed_requests.length

/- Helper lemmas about the association-list operations. -/

theorem alookup_aupdate {α : Type} (l : List (Nat × α)) (k a : Nat) (v : α) :
    alookup (aupdate l k v) a = if k = a then some v else alookup l a := by
  induction l with
  | nil => simp [aupdate, alookup]
  | cons p t ih =>
    obtain ⟨pk, px⟩ := p
    by_cases hpk : pk = k
    · subst hpk
      by_cases hka : pk = a <;> simp [aupdate, alookup, hka]
    · by_cases hpa : pk = a
      · have hka : ¬ k = a := fun h => hpk (hpa.trans h.symm)
        have hak : ¬ a = k := fun h => hka h.symm
        simp [aupdate, alookup, hpk, hpa, hka, hak]
      · simp [aupdate, alookup, hpk, hpa, ih]

theorem maskSelect_mem {α : Type} (l : List α) : ∀ (m : List Bool) (x : α),
    x ∈ maskSelect l m → x ∈ l := by
  induction l with
  | nil => intro m x h; simp [maskSelect] at h
  | cons y t ih =>
    intro m x h
    cases m with
    | nil => simp [maskSelect] at h
    | cons b bs =>
      cases b with
      | false =>
        simp only [maskSelect, Bool.false_eq_true, if_false] at h
        exact List.mem_cons_of_mem _ (ih bs x h)
      | true =>
        simp only [maskSelect, if_true, List.mem_cons] at h
        rcases h with h | h
        · simp [h]
        · exact List.mem_cons_of_mem _ (ih bs x h)

theorem toInt64_of_lt {n : Nat} (h : n < 2 ^ 63) : toInt64 n = (n : Int) := by
  have h64 : n % 2 ^ 64 = n := Nat.mod_eq_of_lt (lt_trans h (by norm_num))
  unfold toInt64
  rw [h64, if_pos h]

/- Helper lemmas characterizing the embedded operations field by field. -/

theorem send_request_snd (w : RamulatorWrapper) (addr req_type data : Nat) (acc : Bool) :
    (ramulator_send_request w addr req_type data acc).2 = (if acc then 1 else 0) := by
  cases acc <;> by_cases h : req_type == 1 <;> simp [ramulator_send_request, h]

theorem send_request_completed (w : RamulatorWrapper) (addr req_type data : Nat) (acc : Bool) :
    ((ramulator_send_request w addr req_type data acc).1).completed_requests
      = w.completed_requests := by
  cases acc <;> by_cases h : req_type == 1 <;> simp [ramulator_send_request, h]

theorem send_request_functional (w : RamulatorWrapper) (addr req_type data : Nat) (acc : Bool) :
    ((ramulator_send_request w addr req_type data acc).1).functional_mem
      = (if req_type == 1
         then aupdate w.functional_mem (addr % 2 ^ 64) (data % 2 ^ 64)
         else w.functional_mem) := by
  cases acc <;> by_cases h : req_type == 1 <;> simp [ramulator_send_request, h]

theorem send_request_req_times (w : RamulatorWrapper) (addr req_type data : Nat) (acc : Bool) :
    ((ramulator_send_request w addr req_type data acc).1).req_times
      = (if acc
         then aupdate w.req_times (addr % 2 ^ 64) (w.cycle_count, req_type)
         else w.req_times) := by
  cases acc <;> by_cases h : req_type == 1 <;> simp [ramulator_send_request, h]

theorem tick_state_fields (w : RamulatorWrapper) (mask : List Bool) :
    (ramulator_tick w mask).1.cycle_count = (w.cycle_count + 1) % 2 ^ 64 ∧
    (ramulator_tick w mask).1.frontend_tick_rate = w.frontend_tick_rate ∧
    (ramulator_tick w mask).1.mem_tick_rate = w.mem_tick_rate ∧
    (ramulator_tick w mask).1.functional_mem = w.functional_mem ∧
    (ramulator_tick w mask).1.req_times = w.req_times := by
  simp only [ramulator_tick]
  split <;> simp [engineTick]

theorem tick_flags (w : RamulatorWrapper) (mask : List Bool) :
    (ramulator_tick w mask).2.1
        = ((((w.cycle_count + 1) % 2 ^ 64) % (w.frontend_tick_rate * w.mem_tick_rate))
            % w.mem_tick_rate == 0) ∧
    (ramulator_tick w mask).2.2
        = ((((w.cycle_count + 1) % 2 ^ 64) % (w.frontend_tick_rate * w.mem_tick_rate))
            % w.frontend_tick_rate == 0) :=
  ⟨rfl, rfl⟩

/- Claim theorems, first batch. -/

/-- C2 (amended): a rejected submit returns 0 and leaves the Request
Ledger and the Completion Queue unchanged; it also leaves the Functional
Store unchanged for a rejected Read, but a rejected Write has already
updated the Functional Store at its own address by the time the
acceptance check runs (lines 77-79 precede line 94). -/
theorem rejected_submit_effects (w : RamulatorWrapper) (addr req_type data : Nat) :
    (ramulator_send_request w addr req_type data false).2 = 0 ∧
    ((ramulator_send_request w addr req_type data false).1).req_times = w.req_times ∧
    ((ramulator_send_request w addr req_type data false).1).completed_requests
      = w.completed_requests ∧
    ((ramulator_send_request w addr req_type data false).1).functional_mem
      = (if req_type == 1
         then aupdate w.functional_mem (addr % 2 ^ 64) (data % 2 ^ 64)
         else w.functional_mem) := by
  refine ⟨?_, ?_, send_request_completed w addr req_type data false,
    send_request_functional w addr req_type data false⟩
  · simp [send_request_snd]
  · simp [send_request_req_times]

/-- C2 counterexample: from a fresh session, a Write submit to address 5
with data 7 that the acceptor rejects (the call returns 0) still changes
the Functional Store at the rejected request's own address, from absent
to 7. -/
theorem rejected_write_mutates_store :
    (ramulator_send_request (ramulator_init 2 3) 5 1 7 false).2 = 0 ∧
    alookup (ramulator_init 2 3).functional_mem 5 = none ∧
    alookup ((ramulator_send_request (ramulator_init 2 3) 5 1 7 false).1).functional_mem 5
      = some 7 := by decide

/-- C8: a drain on an empty Completion Queue returns the sentinel -1,
writes nothing through data_out, and leaves the whole session state
(ledger, queue, store, cycle counter) unchanged; hence iterating the
drain any number of times also leaves the state fixed. -/
theorem drain_empty_noop (w : RamulatorWrapper) (h : w.completed_requests = []) :
    ramulator_check_response w = (w, -1, none) ∧
    ∀ n : Nat, (fun s => (ramulator_check_response s).1)^[n] w = w := by
  have h1 : ramulator_check_response w = (w, -1, none) := by
    simp [ramulator_check_response, h]
  exact ⟨h1, fun n => Function.iterate_fixed (by simp [h1]) n⟩

/-- C8 witness: a fresh session with ratios (2, 3) has an empty queue;
its drain returns the sentinel and five repeated drains leave it
unchanged. -/
theorem drain_empty_noop_witness :
    ramulator_check_response (ramulator_init 2 3) = (ramulator_init 2 3, -1, none) ∧
    (fun s => (ramulator_check_response s).1)^[5] (ramulator_init 2 3)
      = ramulator_init 2 3 :=
  ⟨(drain_empty_noop (ramulator_init 2 3) rfl).1,
   (drain_empty_noop (ramulator_init 2 3) rfl).2 5⟩

/-- C3 (amended): a drain on a non-empty Completion Queue returns the
front entry's address reinterpreted as a signed 64-bit value; for a
completed address below 2 ^ 63 the returned value equals the address and
is at least 0, while an address with the top bit set comes back
negative. -/
theorem drain_addr_nonneg_below (w : RamulatorWrapper) (cr : CompletedReq)
    (rest : List CompletedReq) (hq : w.completed_requests = cr :: rest)
    (ha : cr.addr < 2 ^ 63) :
    (ramulator_check_response w).2.1 = (cr.addr : Int) ∧
    0 ≤ (ramulator_check_response w).2.1 := by
  have hret : (ramulator_check_response w).2.1 = toInt64 cr.addr := by
    simp [ramulator_check_response, hq]
  rw [hret, toInt64_of_lt ha]
  exact ⟨rfl, Int.natCast_nonneg _⟩

def drainWitnessState : RamulatorWrapper :=
  { ramulator_init 2 3 with completed_requests := [{ addr := 5, data := 9 }] }

/-- C3 witness: with queue front address 5, the drain returns 5, which
is at least 0. -/
theorem drain_addr_nonneg_below_witness :
    (ramulator_check_response drainWitnessState).2.1 = (5 : Int) ∧
    0 ≤ (ramulator_check_response drainWitnessState).2.1 :=
  drain_addr_nonneg_below drainWitnessState { addr := 5, data := 9 } [] rfl (by decide)

def drainNegState : RamulatorWrapper :=
  runOps (ramulator_init 1 1) [Op.submit (2 ^ 63) 0 0 true, Op.advance [true]]

/-- C3 counterexample: a session can reach a non-empty Completion Queue
whose completed request carries the 64-bit address 2 ^ 63; the drain on
that state returns a negative address value, not a value at least 0. -/
theorem drain_returns_negative_addr :
    drainNegState.completed_requests ≠ [] ∧
    (ramulator_check_response drainNegState).2.1 < 0 := by decide

/-- C5: in every advance call the frontend is driven iff the
post-increment cycle counter n satisfies (n mod (rf * rm)) mod rm == 0,
and the timing engine is driven iff (n mod (rf * rm)) mod rf == 0, where
rf is the frontend clock ratio and rm the timing-engine clock ratio. -/
theorem tick_drive_conditions (w : RamulatorWrapper) (mask : List Bool) :
    ((ramulator_tick w mask).2.1 = true ↔
      ((ramulator_tick w mask).1.cycle_count % (w.frontend_tick_rate * w.mem_tick_rate))
          % w.mem_tick_rate = 0) ∧
    ((ramulator_tick w mask).2.2 = true ↔
      ((ramulator_tick w mask).1.cycle_count % (w.frontend_tick_rate * w.mem_tick_rate))
          % w.frontend_tick_rate = 0) := by
  rw [(tick_state_fields w mask).1, (tick_flags w mask).1, (tick_flags w mask).2]
  constructor <;> exact beq_iff_eq

theorem resolveVal_eq (fm : List (Nat × Nat)) (a : Nat) :
    resolveVal fm a = (alookup fm a).getD a := by
  unfold resolveVal
  cases alookup fm a <;> rfl

theorem queueRespects_iff (q : List CompletedReq) (a dv : Nat) :
    queueRespects q a dv = true ↔ ∀ e ∈ q, e.addr = a → e.data = dv := by
  simp only [queueRespects, List.all_eq_true, Bool.or_eq_true, bne_iff_ne, beq_iff_eq,
    ne_eq]
  constructor
  · intro h e he haddr
    rcases h e he with hne | hdv
    · exact absurd haddr hne
    · exact hdv
  · intro h e he
    by_cases haddr : e.addr = a
    · exact Or.inr (h e he haddr)
    · exact Or.inl haddr

theorem drain_req_times (w : RamulatorWrapper) :
    ((ramulator_check_response w).1).req_times = w.req_times := by
  rcases hq : w.completed_requests with _ | ⟨cr, rest⟩ <;>
    simp [ramulator_check_response, hq]

theorem tick_completed (w : RamulatorWrapper) (mask : List Bool) :
    (ramulator_tick w mask).1.completed_requests
      = w.completed_requests ++ tickDelta w mask ∧
    ∀ e ∈ tickDelta w mask,
      (e.addr, 0) ∈ w.inflight ∧ e.data = resolveVal w.functional_mem e.addr := by
  have hq : (ramulator_tick w mask).1.completed_requests
      = w.completed_requests ++
        (if ((((w.cycle_count + 1) % 2 ^ 64) % (w.frontend_tick_rate * w.mem_tick_rate))
              % w.frontend_tick_rate) == 0
         then ((maskSelect w.inflight mask).filter (fun p => p.2 == 0)).map
           (fun p => { addr := p.1, data := resolveVal w.functional_mem p.1 })
         else []) := by
    simp only [ramulator_tick]
    split <;> simp [engineTick]
  have hdelta : tickDelta w mask
      = (if ((((w.cycle_count + 1) % 2 ^ 64) % (w.frontend_tick_rate * w.mem_tick_rate))
              % w.frontend_tick_rate) == 0
         then ((maskSelect w.inflight mask).filter (fun p => p.2 == 0)).map
           (fun p => { addr := p.1, data := resolveVal w.functional_mem p.1 })
         else []) := by
    unfold tickDelta
    rw [hq, List.drop_left]
  constructor
  · rw [hq, hdelta]
  · intro e he
    rw [hdelta] at he
    split at he
    · rcases List.mem_map.mp he with ⟨⟨pa, pt⟩, hpf, rfl⟩
      rcases List.mem_filter.mp hpf with ⟨hpm, hp0⟩
      have hpt : pt = 0 := by simpa using hp0
      subst hpt
      exact ⟨maskSelect_mem w.inflight mask _ hpm, rfl⟩
    · simp at he

/-- C4: in every session state, one operation either leaves the
Completion Queue unchanged, pops its front entry (a drain), or appends
entries each of which comes from an in-flight Read request (request
type 0): a completion entry is never enqueued for an accepted Write.
The timing engine's callback policy is not part of the wrapper source
and is modelled from the spec (see engineTick). -/
theorem completions_only_from_reads (w : RamulatorWrapper) (op : Op) :
    (step w op).completed_requests = w.completed_requests ∨
    (step w op).completed_requests = w.completed_requests.tail ∨
    ∃ d, (step w op).completed_requests = w.completed_requests ++ d ∧
         ∀ e ∈ d, (e.addr, 0) ∈ w.inflight := by
  cases op with
  | submit a ty dt acc =>
    exact Or.inl (send_request_completed w a ty dt acc)
  | advance mask =>
    refine Or.inr (Or.inr ⟨tickDelta w mask, (tick_completed w mask).1, ?_⟩)
    intro e he
    exact ((tick_completed w mask).2 e he).1
  | drain =>
    rcases hq : w.completed_requests with _ | ⟨cr, rest⟩
    · exact Or.inl (by simp [step, ramulator_check_response, hq])
    · exact Or.inr (Or.inl (by simp [step, ramulator_check_response, hq]))

/-- C9: the value carried by a completion entry appended during an
advance call is resolved from the Functional Store at the moment the
engine fires the callback, not at submit time: whatever the store held
when the Read was submitted, if the store maps address a to v2 when the
engine completes in-flight requests, every entry appended for a carries
v2. -/
theorem completion_value_at_fire_time (w : RamulatorWrapper) (mask : List Bool)
    (a v2 : Nat) (hmem : alookup w.functional_mem a = some v2) :
    (ramulator_tick w mask).1.completed_requests
      = w.completed_requests ++ tickDelta w mask ∧
    queueRespects (tickDelta w mask) a v2 = true := by
  refine ⟨(tick_completed w mask).1, ?_⟩
  rw [queueRespects_iff]
  intro e he haddr
  have hd := ((tick_completed w mask).2 e he).2
  rw [hd, haddr, resolveVal_eq, hmem]
  rfl

def fireTimeState : RamulatorWrapper :=
  runOps (ramulator_init 1 1)
    [Op.submit 64 1 5 true, Op.submit 64 0 0 true, Op.submit 64 1 7 true]

/-- C9 witness: a Read to address 64 is submitted while the store holds
5; a later accepted Write changes the store to 7 before the engine
completes the Read, and the completion appended by the next advance
carries 7. -/
theorem completion_value_at_fire_time_witness :
    alookup fireTimeState.functional_mem 64 = some 7 ∧
    ((ramulator_tick fireTimeState [true, true, true]).1.completed_requests
        = fireTimeState.completed_requests
          ++ tickDelta fireTimeState [true, true, true] ∧
      queueRespects (tickDelta fireTimeState [true, true, true]) 64 7 = true) :=
  ⟨by decide,
   completion_value_at_fire_time fireTimeState [true, true, true] 64 7 (by decide)⟩

/-- C10: no operation removes a Request Ledger entry: after any single
operation an address that had a ledger entry still has one (possibly
overwritten by a later accepted request to the same address), and a
drain leaves the ledger exactly unchanged, since its ledger lookup only
feeds the latency printf. -/
theorem ledger_entry_persists (w : RamulatorWrapper) (op : Op) (a : Nat)
    (r : Nat × Nat) (h : alookup w.req_times a = some r) :
    (alookup (step w op).req_times a).isSome = true ∧
    (step w Op.drain).req_times = w.req_times := by
  refine ⟨?_, drain_req_times w⟩
  cases op with
  | submit a2 ty dt acc =>
    simp only [step]
    rw [send_request_req_times]
    cases acc with
    | false => simp [h]
    | true =>
      simp only [if_true]
      rw [alookup_aupdate]
      split
      · rfl
      · rw [h]; rfl
  | advance mask =>
    simp only [step]
    rw [(tick_state_fields w mask).2.2.2.2, h]
    rfl
  | drain =>
    simp only [step]
    rw [drain_req_times w, h]
    rfl

def ledgerState : RamulatorWrapper :=
  (ramulator_send_request (ramulator_init 2 3) 5 0 0 true).1

/-- C10 witness: after an accepted Read submit to address 5 the ledger
holds an entry for 5; a drain keeps it present and leaves the ledger
unchanged. -/
theorem ledger_entry_persists_witness :
    alookup ledgerState.req_times 5 = some (0, 0) ∧
    ((alookup (step ledgerState Op.drain).req_times 5).isSome = true ∧
     (step ledgerState Op.drain).req_times = ledgerState.req_times) :=
  ⟨by decide, ledger_entry_persists ledgerState Op.drain 5 (0, 0) (by decide)⟩

theorem drain_state_fields (w : RamulatorWrapper) :
    ((ramulator_check_response w).1).functional_mem = w.functional_mem ∧
    ((ramulator_check_response w).1).completed_requests = w.completed_requests.tail := by
  rcases hq : w.completed_requests with _ | ⟨cr, rest⟩ <;>
    simp [ramulator_check_response, hq]

theorem step_addr_inv (w : RamulatorWrapper) (op : Op) (a : Nat) (P : Option Nat)
    (hop : opWritesTo op a = false)
    (hmem : alookup w.functional_mem a = P)
    (hq : ∀ e ∈ w.completed_requests, e.addr = a → e.data = P.getD a) :
    alookup (step w op).functional_mem a = P ∧
    ∀ e ∈ (step w op).completed_requests, e.addr = a → e.data = P.getD a := by
  cases op with
  | submit a2 ty dt acc =>
    constructor
    · simp only [step]
      rw [send_request_functional]
      by_cases hty : (ty == 1) = true
      · rw [if_pos hty, alookup_aupdate]
        have hne : ¬ a2 % 2 ^ 64 = a := by
          intro hk
          have htrue : opWritesTo (Op.submit a2 ty dt acc) a = true := by
            simp only [opWritesTo, hty, Bool.true_and, beq_iff_eq]
            exact hk
          rw [hop] at htrue
          exact Bool.false_ne_true htrue
        rw [if_neg hne]
        exact hmem
      · rw [if_neg hty]
        exact hmem
    · intro e he
      simp only [step] at he
      rw [send_request_completed] at he
      exact hq e he
  | advance mask =>
    constructor
    · simp only [step]
      rw [(tick_state_fields w mask).2.2.2.1]
      exact hmem
    · intro e he
      simp only [step] at he
      rw [(tick_completed w mask).1] at he
      rcases List.mem_append.mp he with h1 | h2
      · exact hq e h1
      · intro haddr
        have hd := ((tick_completed w mask).2 e h2).2
        rw [hd, haddr, resolveVal_eq, hmem]
  | drain =>
    constructor
    · simp only [step]
      rw [(drain_state_fields w).1]
      exact hmem
    · intro e he
      simp only [step] at he
      rw [(drain_state_fields w).2] at he
      exact hq e (List.mem_of_mem_tail he)

theorem runOps_addr_inv (ops : List Op) :
    ∀ (w : RamulatorWrapper) (a : Nat) (P : Option Nat),
    (∀ op ∈ ops, opWritesTo op a = false) →
    alookup w.functional_mem a = P →
    (∀ e ∈ w.completed_requests, e.addr = a → e.data = P.getD a) →
    alookup (runOps w ops).functional_mem a = P ∧
    ∀ e ∈ (runOps w ops).completed_requests, e.addr = a → e.data = P.getD a := by
  induction ops with
  | nil =>
    intro w a P _ hmem hq
    simp only [runOps, List.foldl_nil]
    exact ⟨hmem, hq⟩
  | cons op t ih =>
    intro w a P hops hmem hq
    have h1 := step_addr_inv w op a P (hops op (List.mem_cons_self op t)) hmem hq
    have h2 := ih (step w op) a P (fun o ho => hops o (List.mem_cons_of_mem op ho))
      h1.1 h1.2
    simpa [runOps, List.foldl_cons] using h2

theorem noWriteTo_forall {ops : List Op} {a : Nat} (h : noWriteTo ops a = true) :
    ∀ op ∈ ops, opWritesTo op a = false := by
  intro op hop
  have := List.all_eq_true.mp h op hop
  simpa using this

/-- C6: once a Write has set the Functional Store at address a to v,
then over any further operations that contain no Write submit to a the
store keeps mapping a to v, and every completion entry for a carried by
the queue afterwards (in particular the entry of any Read to a that is
submitted and completed in this span) carries exactly v, however many
advance calls separate the write, the read and the completion.  The
hypothesis on the starting queue rules out stale completions of reads
that fired before the write. -/
theorem write_then_read_yields_written (ops : List Op) (w : RamulatorWrapper)
    (a v : Nat) (hmem : alookup w.functional_mem a = some v)
    (hq : queueRespects w.completed_requests a v = true)
    (hops : noWriteTo ops a = true) :
    alookup (runOps w ops).functional_mem a = some v ∧
    queueRespects (runOps w ops).completed_requests a v = true := by
  have h := runOps_addr_inv ops w a (some v) (noWriteTo_forall hops) hmem
    (by simpa using (queueRespects_iff _ _ _).mp hq)
  refine ⟨h.1, (queueRespects_iff _ _ _).mpr ?_⟩
  simpa using h.2

def writeReadStart : RamulatorWrapper :=
  (ramulator_send_request (ramulator_init 1 1) 64 1 43981 true).1

def writeReadOps : List Op :=
  [Op.submit 64 0 0 true, Op.advance [true, true]]

/-- C6 witness: after an accepted Write of 43981 to address 64, a Read
to 64 is submitted and completed by an advance; the store still maps 64
to 43981 and the Read's completion entry carries 43981. -/
theorem write_then_read_yields_written_witness :
    alookup writeReadStart.functional_mem 64 = some 43981 ∧
    queueRespects writeReadStart.completed_requests 64 43981 = true ∧
    noWriteTo writeReadOps 64 = true ∧
    (alookup (runOps writeReadStart writeReadOps).functional_mem 64 = some 43981 ∧
     queueRespects (runOps writeReadStart writeReadOps).completed_requests 64 43981
       = true) :=
  ⟨by decide, by decide, by decide,
   write_then_read_yields_written writeReadOps writeReadStart 64 43981
     (by decide) (by decide) (by decide)⟩

/-- C7: for an address a at which the Functional Store has no entry (no
Write to a was ever submitted), as long as no Write to a occurs the
store stays without an entry at a and every completion entry produced
for a (the completion of any Read to a) carries the address itself as
its value, the deterministic never-written default of the callback. -/
theorem unwritten_read_yields_addr (ops : List Op) (w : RamulatorWrapper) (a : Nat)
    (hmem : alookup w.functional_mem a = none)
    (hq : queueRespects w.completed_requests a a = true)
    (hops : noWriteTo ops a = true) :
    alookup (runOps w ops).functional_mem a = none ∧
    queueRespects (runOps w ops).completed_requests a a = true := by
  have h := runOps_addr_inv ops w a none (noWriteTo_forall hops) hmem
    (by simpa using (queueRespects_iff _ _ _).mp hq)
  refine ⟨h.1, (queueRespects_iff _ _ _).mpr ?_⟩
  simpa using h.2

def unwrittenOps : List Op :=
  [Op.submit 128 0 0 true, Op.advance [true]]

/-- C7 witness: a Read to the never-written address 128 is submitted
and completed; its completion entry carries the value 128. -/
theorem unwritten_read_yields_addr_witness :
    alookup (ramulator_init 1 1).functional_mem 128 = none ∧
    queueRespects (ramulator_init 1 1).completed_requests 128 128 = true ∧
    noWriteTo unwrittenOps 128 = true ∧
    (alookup (runOps (ramulator_init 1 1) unwrittenOps).functional_mem 128 = none ∧
     queueRespects (runOps (ramulator_init 1 1) unwrittenOps).completed_requests 128 128
       = true) :=
  ⟨by decide, by decide, by decide,
   unwritten_read_yields_addr unwrittenOps (ramulator_init 1 1) 128
     (by decide) (by decide) (by decide)⟩

theorem runTicks_counts (n : Nat) :
    ∀ (w : RamulatorWrapper),
    0 < w.frontend_tick_rate → 0 < w.mem_tick_rate →
    w.cycle_count + n < 2 ^ 64 →
    (runTicks w n).2.1 + w.cycle_count / w.mem_tick_rate
        = (w.cycle_count + n) / w.mem_tick_rate ∧
    (runTicks w n).2.2 + w.cycle_count / w.frontend_tick_rate
        = (w.cycle_count + n) / w.frontend_tick_rate := by
  induction n with
  | zero =>
    intro w _ _ _
    simp [runTicks]
  | succ n ih =>
    intro w hf hm hb
    have hcc1 : (w.cycle_count + 1) % 2 ^ 64 = w.cycle_count + 1 :=
      Nat.mod_eq_of_lt (by omega)
    have hs := tick_state_fields w []
    have hih := ih (ramulator_tick w []).1
      (by rw [hs.2.1]; exact hf) (by rw [hs.2.2.1]; exact hm)
      (by rw [hs.1, hcc1]; omega)
    rw [hs.2.1, hs.2.2.1, hs.1, hcc1] at hih
    have hrt : runTicks w (n + 1)
        = ((runTicks (ramulator_tick w []).1 n).1,
           (if (ramulator_tick w []).2.1 then 1 else 0)
             + (runTicks (ramulator_tick w []).1 n).2.1,
           (if (ramulator_tick w []).2.2 then 1 else 0)
             + (runTicks (ramulator_tick w []).1 n).2.2) := rfl
    have hfe : (ramulator_tick w []).2.1
        = ((w.cycle_count + 1) % w.mem_tick_rate == 0) := by
      rw [(tick_flags w []).1, hcc1,
        Nat.mod_mod_of_dvd _ (dvd_mul_left w.mem_tick_rate w.frontend_tick_rate)]
    have hme : (ramulator_tick w []).2.2
        = ((w.cycle_count + 1) % w.frontend_tick_rate == 0) := by
      rw [(tick_flags w []).2, hcc1,
        Nat.mod_mod_of_dvd _ (dvd_mul_right w.frontend_tick_rate w.mem_tick_rate)]
    have hcm : w.cycle_count + (n + 1) = w.cycle_count + 1 + n := by omega
    rw [hrt, hcm]
    constructor
    · rw [hfe]
      have hsd := Nat.succ_div w.cycle_count w.mem_tick_rate
      by_cases hdvd : (w.cycle_count + 1) % w.mem_tick_rate = 0
      · rw [if_pos (Nat.dvd_of_mod_eq_zero hdvd)] at hsd
        rw [if_pos (beq_iff_eq.mpr hdvd), ← hih.1, hsd]
        ring
      · rw [if_neg (fun hd => hdvd (Nat.mod_eq_zero_of_dvd hd))] at hsd
        rw [if_neg (fun hh => hdvd (beq_iff_eq.mp hh)), ← hih.1, hsd]
        ring
    · rw [hme]
      have hsd := Nat.succ_div w.cycle_count w.frontend_tick_rate
      by_cases hdvd : (w.cycle_count + 1) % w.frontend_tick_rate = 0
      · rw [if_pos (Nat.dvd_of_mod_eq_zero hdvd)] at hsd
        rw [if_pos (beq_iff_eq.mpr hdvd), ← hih.2, hsd]
        ring
      · rw [if_neg (fun hd => hdvd (Nat.mod_eq_zero_of_dvd hd))] at hsd
        rw [if_neg (fun hh => hdvd (beq_iff_eq.mp hh)), ← hih.2, hsd]
        ring

/-- C1 (amended): over any window of rf * rm consecutive advance calls
that stays below the 2 ^ 64 wrap of the cycle counter, the frontend
(clock ratio rf) is driven exactly rf times and the timing engine
(clock ratio rm) exactly rm times: each sub-engine is driven a number
of times equal to its own ratio, once every (other ratio) calls.  The
counts are swapped relative to the claim. -/
theorem tick_window_counts (w : RamulatorWrapper) (rf rm : Nat)
    (hf : w.frontend_tick_rate = rf) (hm : w.mem_tick_rate = rm)
    (hrf : 0 < rf) (hrm : 0 < rm)
    (hb : w.cycle_count + rf * rm < 2 ^ 64) :
    (runTicks w (rf * rm)).2.1 = rf ∧ (runTicks w (rf * rm)).2.2 = rm := by
  have h := runTicks_counts (rf * rm) w
    (by rw [hf]; exact hrf) (by rw [hm]; exact hrm) hb
  rw [hf, hm] at h
  constructor
  · have h1 := h.1
    rw [Nat.add_mul_div_right _ _ hrm,
      Nat.add_comm (w.cycle_count / rm) rf] at h1
    exact Nat.add_right_cancel h1
  · have h2 := h.2
    rw [Nat.add_mul_div_left _ _ hrf,
      Nat.add_comm (w.cycle_count / rf) rm] at h2
    exact Nat.add_right_cancel h2

/-- C1 witness (amended claim): on a fresh session with frontend ratio 2
and engine ratio 3, the window of 6 advance calls drives the frontend 2
times and the timing engine 3 times. -/
theorem tick_window_counts_witness :
    (runTicks (ramulator_init 2 3) (2 * 3)).2.1 = 2 ∧
    (runTicks (ramulator_init 2 3) (2 * 3)).2.2 = 3 :=
  tick_window_counts (ramulator_init 2 3) 2 3 rfl rfl
    (by decide) (by decide) (by decide)

/-- C1 counterexample: with frontend ratio 2 and engine ratio 3, the
window of 6 advance calls from a fresh session drives the frontend 2
times and the timing engine 3 times, so the claimed counts (frontend
3 = engine ratio, engine 2 = frontend ratio) are false. -/
theorem tick_window_counts_cex :
    ¬ ((runTicks (ramulator_init 2 3) (2 * 3)).2.1 = 3 ∧
       (runTicks (ramulator_init 2 3) (2 * 3)).2.2 = 2) := by decide
